import Mathlib

/-!
Verification of the HoverAssistant geodesic offset engine.

The definitions below are shallow embeddings of the JavaScript sources:
* `DisplayManager` (heading-rotating variant, `src/unnamed/part_004`, and the
  earlier variants `src/unnamed/part_003` and `src/src/core/DisplayManager.js`),
* `CompassController` (`src/src/core/CompassController.js`),
* `SettingsManager` (`src/unnamed/part_002`),
* `HoverAssistant` (`src/src/core/HoverAssistant.js`),
* `GPSManager` (`src/src/core/GPSManager.js`).

JavaScript numbers are modelled as real numbers (`ℝ`) where the code does
transcendental arithmetic and as rationals (`ℚ`) where the code only compares
and stores values.  The JavaScript remainder operator `%` truncates toward
zero and takes the sign of the dividend; it is modelled exactly by `jsMod`.
-/

namespace HoverAssistant

open Real

/-! ### JavaScript numeric primitives -/

/-- Truncation toward zero, as JavaScript does when computing `a % b`. -/
noncomputable def jsTrunc (q : ℝ) : ℤ :=
  if 0 ≤ q then ⌊q⌋ else ⌈q⌉

/-- The JavaScript remainder `a % b` for finite `a` and positive finite `b`:
`a - b * trunc (a / b)`.  The result carries the sign of the dividend `a`. -/
noncomputable def jsMod (a b : ℝ) : ℝ :=
  a - b * (jsTrunc (a / b) : ℝ)

theorem jsTrunc_of_nonneg {q : ℝ} (h : 0 ≤ q) : jsTrunc q = ⌊q⌋ := by
  simp [jsTrunc, h]

/-- For a nonnegative dividend the JavaScript remainder lands in `[0, b)`. -/
theorem jsMod_mem_Ico {a b : ℝ} (hb : 0 < b) (ha : 0 ≤ a) :
    0 ≤ jsMod a b ∧ jsMod a b < b := by
  have hq : 0 ≤ a / b := div_nonneg ha hb.le
  rw [jsMod, jsTrunc_of_nonneg hq]
  constructor
  · have h1 : (⌊a / b⌋ : ℝ) ≤ a / b := Int.floor_le _
    have h2 : (⌊a / b⌋ : ℝ) * b ≤ a := (le_div_iff hb).mp h1
    nlinarith
  · have h1 : a / b < (⌊a / b⌋ : ℝ) + 1 := Int.lt_floor_add_one _
    have h2 : a < ((⌊a / b⌋ : ℝ) + 1) * b := (div_lt_iff hb).mp h1
    nlinarith

/-! ### DisplayManager heading state (`src/unnamed/part_004`, lines 395–423)

`onHeadingChange` and `setSelectedHeading` mutate `this.selectedHeading`;
they are embedded as pure functions from the previous stored heading (and
the incoming delta) to the new stored heading. -/

/-- `onHeadingChange(rotationDelta)`:
`this.selectedHeading = (this.selectedHeading + rotationDelta + 360) % 360`. -/
noncomputable def onHeadingChange (selectedHeading rotationDelta : ℝ) : ℝ :=
  jsMod (selectedHeading + rotationDelta + 360) 360

/-- `setSelectedHeading(heading)`: `this.selectedHeading = (heading + 360) % 360`. -/
noncomputable def setSelectedHeading (heading : ℝ) : ℝ :=
  jsMod (heading + 360) 360

/-! ### drawPositionDot rotation stage (`src/unnamed/part_004`, lines 288–295) -/

/-- Lines 289–291 of `drawPositionDot`: rotate the local offset
(`offsetX` = east meters, `offsetY` = north meters) by
`headingRad = -selectedHeading * π / 180` with the standard 2D rotation. -/
noncomputable def rotateByNegHeading (offsetX offsetY selectedHeading : ℝ) : ℝ × ℝ :=
  let headingRad := -selectedHeading * π / 180
  (offsetX * Real.cos headingRad - offsetY * Real.sin headingRad,
   offsetX * Real.sin headingRad + offsetY * Real.cos headingRad)

/-- Lines 294–295 of `drawPositionDot` in `src/unnamed/part_004`: the rotated
offset is mapped to canvas pixels with the canvas y axis pointing down, so the
y component is negated (`pixelY = centerY - rotatedY * pixelsPerMeter`). -/
noncomputable def positionDotPixel (centerX centerY pixelsPerMeter offsetX offsetY selectedHeading : ℝ) :
    ℝ × ℝ :=
  let r := rotateByNegHeading offsetX offsetY selectedHeading
  (centerX + r.1 * pixelsPerMeter, centerY - r.2 * pixelsPerMeter)

/-- The same stage in the sibling variant `src/unnamed/part_003` (lines 281–289):
there the north component is negated before the rotation and the pixel map adds
the rotated y (`pixelY = centerY + rotatedY * pixelsPerMeter`). -/
noncomputable def positionDotPixelV3 (centerX centerY pixelsPerMeter offsetX offsetYDown selectedHeading : ℝ) :
    ℝ × ℝ :=
  let r := rotateByNegHeading offsetX offsetYDown selectedHeading
  (centerX + r.1 * pixelsPerMeter, centerY + r.2 * pixelsPerMeter)

/-- `drawCompassRing` (`src/unnamed/part_004`, lines 357–382): canvas position
of the `E` cardinal label for a given heading. -/
noncomputable def eastLabelPos (centerX centerY labelRadius selectedHeading : ℝ) : ℝ × ℝ :=
  let headingOffset := -selectedHeading * π / 180
  let northAngle := headingOffset - π / 2
  let eastAngle := northAngle + π / 2
  (centerX + Real.cos eastAngle * labelRadius, centerY + Real.sin eastAngle * labelRadius)

/-! ### Geodesy (`src/unnamed/part_004`, lines 513–621)

`Math.atan2(y, x)` returns the angle of the point `(x, y)` in `(-π, π]`,
which is exactly the argument of the complex number `x + y·i`. -/

/-- `Math.atan2(y, x)` modelled as the complex argument of `x + y·i`. -/
noncomputable def atan2 (y x : ℝ) : ℝ :=
  Complex.arg ((x : ℂ) + (y : ℂ) * Complex.I)

/-- `haversineDistance(lat1, lon1, lat2, lon2)` from `src/unnamed/part_004`,
lines 513–539, including the small-angle linear fallback branch. -/
noncomputable def haversineDistance (lat1 lon1 lat2 lon2 : ℝ) : ℝ :=
  let R := (6378137.0 : ℝ)
  let phi1 := lat1 * (π / 180.0)
  let phi2 := lat2 * (π / 180.0)
  let dphi := (lat2 - lat1) * (π / 180.0)
  let dlam := (lon2 - lon1) * (π / 180.0)
  if |dphi| < 1e-8 ∧ |dlam| < 1e-8 then
    let avgLat := (phi1 + phi2) / 2.0
    let x := dlam * Real.cos avgLat
    let y := dphi
    R * Real.sqrt (x * x + y * y)
  else
    let a := Real.sin (dphi / 2.0) * Real.sin (dphi / 2.0) +
      Real.cos phi1 * Real.cos phi2 * Real.sin (dlam / 2.0) * Real.sin (dlam / 2.0)
    let c := 2.0 * atan2 (Real.sqrt a) (Real.sqrt (1.0 - a))
    R * c

/-- `calculateBearing(lat1, lon1, lat2, lon2)` from `src/unnamed/part_004`,
lines 549–559 (semantically identical to `HoverAssistant.calculateBearing`,
`src/src/core/HoverAssistant.js` lines 274–285). -/
noncomputable def calculateBearing (lat1 lon1 lat2 lon2 : ℝ) : ℝ :=
  let phi1 := lat1 * π / 180
  let phi2 := lat2 * π / 180
  let dlam := (lon2 - lon1) * π / 180
  let y := Real.sin dlam * Real.cos phi2
  let x := Real.cos phi1 * Real.sin phi2 - Real.sin phi1 * Real.cos phi2 * Real.cos dlam
  let bearing := atan2 y x * 180 / π
  jsMod (bearing + 360) 360

/-- WGS84 semi-major axis, `const a` in `gpsToLocalCoordinates`. -/
noncomputable def wgs84a : ℝ := 6378137.0

/-- WGS84 flattening, `const f` in `gpsToLocalCoordinates`. -/
noncomputable def wgs84f : ℝ := 1.0 / 298.257223563

/-- First eccentricity squared, `const e2 = 2*f - f*f`. -/
noncomputable def wgs84e2 : ℝ := 2.0 * wgs84f - wgs84f * wgs84f

/-- `gpsToLocalCoordinates(referencePos, currentPos)` from
`src/unnamed/part_004`, lines 568–621: local tangent plane for small angular
separations, two orthogonal haversine calls otherwise.  Returns
`(x, y) = (east offset, north offset)` in meters. -/
noncomputable def gpsToLocalCoordinates (refLat refLon curLat curLon : ℝ) : ℝ × ℝ :=
  let phi0 := refLat * (π / 180.0)
  let lam0 := refLon * (π / 180.0)
  let phi := curLat * (π / 180.0)
  let lam := curLon * (π / 180.0)
  let dphi := phi - phi0
  let dlam := lam - lam0
  if |dphi| < 0.001 ∧ |dlam| < 0.001 then
    let M := wgs84a * (1.0 - wgs84e2) /
      (1.0 - wgs84e2 * Real.sin phi0 * Real.sin phi0) ^ (1.5 : ℝ)
    let N := wgs84a / Real.sqrt (1.0 - wgs84e2 * Real.sin phi0 * Real.sin phi0)
    let northOffset := M * dphi
    let eastOffset := N * Real.cos phi0 * dlam
    (eastOffset, northOffset)
  else
    let eastDistance := haversineDistance refLat refLon refLat curLon
    let eastOffset := if refLon < curLon then eastDistance else -eastDistance
    let northDistance := haversineDistance refLat refLon curLat refLon
    let northOffset := if refLat < curLat then northDistance else -northDistance
    (eastOffset, northOffset)

/-! ### Theorems -/

/-- C1: evaluating the heading rotation of `drawPositionDot`
(`src/unnamed/part_004`) at the local offset {east:10, north:0} with selected
heading 90° yields the rotated offset `(0, -10)`, NOT `(x≈0, y≈10)` as the
claim states.  With the y-down pixel map of that file the dot lands 10 m
BELOW the screen center (`pixelY = centerY + 10·ppm`), while the compass ring
of the same file places the `E` cardinal label ABOVE the center, and the
sibling variant `src/unnamed/part_003` renders the dot above the center: the
rotation sense of the heading-rotating `drawPositionDot` is inverted. -/
theorem drawPositionDot_heading90_renders_east_below_center :
    rotateByNegHeading 10 0 90 = (0, -10) ∧
    positionDotPixel 0 0 1 10 0 90 = (0, 10) ∧
    positionDotPixelV3 0 0 1 10 0 90 = (0, -10) ∧
    eastLabelPos 0 0 100 90 = (0, -100) := by
  have h : -(90:ℝ) * π / 180 = -(π/2) := by ring
  have hc : Real.cos (-(90:ℝ) * π / 180) = 0 := by
    rw [h, Real.cos_neg, Real.cos_pi_div_two]
  have hs : Real.sin (-(90:ℝ) * π / 180) = -1 := by
    rw [h, Real.sin_neg, Real.sin_pi_div_two]
  have he : -(90:ℝ) * π / 180 - π/2 + π/2 = -(π/2) := by ring
  have hce : Real.cos (-(90:ℝ) * π / 180 - π/2 + π/2) = 0 := by
    rw [he, Real.cos_neg, Real.cos_pi_div_two]
  have hse : Real.sin (-(90:ℝ) * π / 180 - π/2 + π/2) = -1 := by
    rw [he, Real.sin_neg, Real.sin_pi_div_two]
  refine ⟨?_, ?_, ?_, ?_⟩ <;>
    simp only [rotateByNegHeading, positionDotPixel, positionDotPixelV3,
      eastLabelPos, hc, hs, hce, hse] <;>
    norm_num

/-- C2 counterexample: starting from the stored heading 0 (which is in
`[0,360)`), the finite signed delta `-361` makes
`onHeadingChange` store `(0 - 361 + 360) % 360 = (-1) % 360 = -1`,
because the JavaScript remainder keeps the sign of the dividend; the stored
heading is negative, violating the `[0,360)` invariant.  Likewise
`setSelectedHeading (-361)` stores `-1`. -/
theorem onHeadingChange_large_negative_delta_escapes_range :
    onHeadingChange 0 (-361) = -1 ∧ setSelectedHeading (-361) = -1 ∧
    ¬ (0 ≤ onHeadingChange 0 (-361)) := by
  have h1 : onHeadingChange 0 (-361) = -1 := by
    have e : (0:ℝ) + (-361) + 360 = -1 := by norm_num
    rw [onHeadingChange, e, jsMod, jsTrunc]
    rw [if_neg (by norm_num)]
    norm_num
  have h2 : setSelectedHeading (-361) = -1 := by
    have e : (-361:ℝ) + 360 = -1 := by norm_num
    rw [setSelectedHeading, e, jsMod, jsTrunc]
    rw [if_neg (by norm_num)]
    norm_num
  exact ⟨h1, h2, by rw [h1]; norm_num⟩

/-- C2 amended: whenever the quantity fed to `%` is nonnegative — that is,
`heading + delta + 360 ≥ 0`, which covers every starting heading in `[0,360)`
combined with every delta `≥ -360` — `onHeadingChange` stores a value in
`[0,360)`, and `setSelectedHeading` stores a value in `[0,360)` whenever its
argument is `≥ -360`.  (For smaller inputs the JavaScript remainder is
negative, see the counterexample.) -/
theorem onHeadingChange_range (h d : ℝ) (hsum : 0 ≤ h + d + 360) :
    (0 ≤ onHeadingChange h d ∧ onHeadingChange h d < 360) ∧
    (0 ≤ setSelectedHeading (h + d) ∧ setSelectedHeading (h + d) < 360) := by
  have h360 : (0:ℝ) < 360 := by norm_num
  constructor
  · simpa [onHeadingChange] using jsMod_mem_Ico h360 hsum
  · simpa [setSelectedHeading] using jsMod_mem_Ico h360 hsum

/-- Witness for C2 amended: heading 0, delta +370 (the spec's own example). -/
theorem onHeadingChange_range_witness :
    (0:ℝ) ≤ 0 + 370 + 360 ∧
    ((0 ≤ onHeadingChange 0 370 ∧ onHeadingChange 0 370 < 360) ∧
     (0 ≤ setSelectedHeading (0 + 370) ∧ setSelectedHeading (0 + 370) < 360)) :=
  ⟨by norm_num, onHeadingChange_range 0 370 (by norm_num)⟩

/-- C3: for every (real) coordinate, the local offset of a point relative to
itself is exactly `(0, 0)`: the angular deltas vanish, so the local
tangent-plane branch is taken and both products are zero.  Moreover the two
denominators appearing in that branch (the `Math.pow(…, 1.5)` term of the
meridional radius `M` and the `Math.sqrt` term of the prime-vertical radius
`N`) are strictly positive, so no division by zero occurs. -/
theorem gpsToLocalCoordinates_self (lat lon : ℝ) :
    gpsToLocalCoordinates lat lon lat lon = (0, 0) ∧
    0 < (1.0 - wgs84e2 * Real.sin (lat * (π / 180.0)) * Real.sin (lat * (π / 180.0))) ^ (1.5 : ℝ) ∧
    0 < Real.sqrt (1.0 - wgs84e2 * Real.sin (lat * (π / 180.0)) * Real.sin (lat * (π / 180.0))) := by
  have hs1 : Real.sin (lat * (π / 180.0)) ≤ 1 := Real.sin_le_one _
  have hs2 : -1 ≤ Real.sin (lat * (π / 180.0)) := Real.neg_one_le_sin _
  have he2a : (0:ℝ) ≤ wgs84e2 := by norm_num [wgs84e2, wgs84f]
  have he2b : wgs84e2 < 1 := by norm_num [wgs84e2, wgs84f]
  have hbase : 0 < 1.0 - wgs84e2 * Real.sin (lat * (π / 180.0)) * Real.sin (lat * (π / 180.0)) := by
    nlinarith [mul_nonneg (mul_nonneg he2a (sub_nonneg.mpr hs1))
      (by linarith : (0:ℝ) ≤ 1 + Real.sin (lat * (π / 180.0)))]
  refine ⟨?_, Real.rpow_pos_of_pos hbase _, Real.sqrt_pos.mpr hbase⟩
  simp only [gpsToLocalCoordinates, sub_self, abs_zero]
  norm_num

/-- C4 counterexample: for the pair p1 = (0°N, 0°E), p2 = (45°N, 90°E) the
exact values are `calculateBearing(p1, p2) = 45` and
`calculateBearing(p2, p1) = 270`; the two results differ by 225° modulo 360°,
not by 180°, so the claimed antisymmetry fails (by 45°, far beyond any
numerical tolerance — the computation here is exact).  Initial great-circle
bearings are not antisymmetric for distant points. -/
theorem calculateBearing_not_antisymmetric :
    calculateBearing 0 0 45 90 = 45 ∧
    calculateBearing 45 90 0 0 = 270 ∧
    jsMod (calculateBearing 45 90 0 0 - calculateBearing 0 0 45 90) 360 = 225 ∧
    (225 : ℝ) ≠ 180 := by
  have hpi := Real.pi_pos
  have hb1 : calculateBearing 0 0 45 90 = 45 := by
    have hy : Real.sin ((90 - 0) * π / 180) * Real.cos (45 * π / 180) = Real.sin (π/4) := by
      rw [show ((90:ℝ) - 0) * π / 180 = π/2 by ring, show (45:ℝ) * π / 180 = π/4 by ring,
        Real.sin_pi_div_two, Real.sin_pi_div_four, Real.cos_pi_div_four, one_mul]
    have hx : Real.cos (0 * π / 180) * Real.sin (45 * π / 180) -
        Real.sin (0 * π / 180) * Real.cos (45 * π / 180) * Real.cos ((90 - 0) * π / 180) =
        Real.cos (π/4) := by
      rw [show (0:ℝ) * π / 180 = 0 by ring, show (45:ℝ) * π / 180 = π/4 by ring]
      simp [Real.cos_pi_div_four, Real.sin_pi_div_four]
    have harg : atan2 (Real.sin (π/4)) (Real.cos (π/4)) = π/4 := by
      rw [atan2, Complex.ofReal_cos, Complex.ofReal_sin]
      exact Complex.arg_cos_add_sin_mul_I ⟨by linarith, by linarith⟩
    simp only [calculateBearing]
    rw [hy, hx, harg, show π/4 * 180 / π + 360 = 405 by field_simp; ring]
    rw [jsMod, jsTrunc, if_pos (by norm_num)]
    norm_num
  have hb2 : calculateBearing 45 90 0 0 = 270 := by
    have hy : Real.sin ((0 - 90) * π / 180) * Real.cos (0 * π / 180) = -1 := by
      rw [show ((0:ℝ) - 90) * π / 180 = -(π/2) by ring, show (0:ℝ) * π / 180 = 0 by ring,
        Real.sin_neg, Real.sin_pi_div_two, Real.cos_zero]
      norm_num
    have hx : Real.cos (45 * π / 180) * Real.sin (0 * π / 180) -
        Real.sin (45 * π / 180) * Real.cos (0 * π / 180) * Real.cos ((0 - 90) * π / 180) =
        0 := by
      rw [show ((0:ℝ) - 90) * π / 180 = -(π/2) by ring, show (0:ℝ) * π / 180 = 0 by ring,
        Real.cos_neg, Real.cos_pi_div_two]
      simp
    have harg : atan2 (-1) 0 = -(π/2) := by
      rw [atan2, show ((0:ℝ):ℂ) + ((-1:ℝ):ℂ) * Complex.I = -Complex.I by push_cast; ring]
      exact Complex.arg_neg_I
    simp only [calculateBearing]
    rw [hy, hx, harg, show -(π/2) * 180 / π + 360 = 270 by field_simp; ring]
    rw [jsMod, jsTrunc, if_pos (by norm_num)]
    norm_num
  refine ⟨hb1, hb2, ?_, by norm_num⟩
  rw [hb1, hb2, show (270:ℝ) - 45 = 225 by norm_num, jsMod, jsTrunc, if_pos (by norm_num)]
  norm_num

/-- C4 amended: every result of `calculateBearing` lies in `[0,360)` (the
`atan2` output is in `(-180°,180°]`, so adding 360 makes the dividend of `%`
positive), but the 180°-difference antisymmetry does NOT hold in general for
the great-circle initial bearing (see the counterexample); it does hold — and
exactly — for pairs on a common meridian: for equal longitudes and latitudes
`la1 < la2` with `la2 - la1 < 180`, the forward bearing is 0 and the reverse
bearing is 180. -/
theorem calculateBearing_range_and_meridian (lat1 lon1 lat2 lon2 la1 la2 lo : ℝ)
    (hlt : la1 < la2) (hspan : la2 - la1 < 180) :
    (0 ≤ calculateBearing lat1 lon1 lat2 lon2 ∧ calculateBearing lat1 lon1 lat2 lon2 < 360) ∧
    calculateBearing la1 lo la2 lo = 0 ∧ calculateBearing la2 lo la1 lo = 180 := by
  have hpi := Real.pi_pos
  have hrange : ∀ a b c d : ℝ,
      0 ≤ calculateBearing a b c d ∧ calculateBearing a b c d < 360 := by
    intro a b c d
    simp only [calculateBearing]
    apply jsMod_mem_Ico (by norm_num)
    set t := atan2 (Real.sin ((d - b) * π / 180) * Real.cos (c * π / 180))
      (Real.cos (a * π / 180) * Real.sin (c * π / 180) -
        Real.sin (a * π / 180) * Real.cos (c * π / 180) * Real.cos ((d - b) * π / 180))
      with ht
    have h1 : -π < t := Complex.neg_pi_lt_arg _
    have hratio : (0:ℝ) < 180 / π := by positivity
    have h2 : -π * (180/π) < t * (180/π) := mul_lt_mul_of_pos_right h1 hratio
    have h3 : -π * (180/π) = -180 := by field_simp; ring
    have h4 : t * (180/π) = t * 180 / π := by ring
    linarith
  have hsinpos : 0 < Real.sin ((la2 - la1) * π / 180) := by
    apply Real.sin_pos_of_pos_of_lt_pi
    · exact div_pos (mul_pos (by linarith) hpi) (by norm_num)
    · have h1 := mul_lt_mul_of_pos_right hspan hpi
      linarith
  refine ⟨hrange lat1 lon1 lat2 lon2, ?_, ?_⟩
  · have hy : Real.sin ((lo - lo) * π / 180) * Real.cos (la2 * π / 180) = 0 := by
      rw [show (lo - lo) * π / 180 = 0 by ring, Real.sin_zero, zero_mul]
    have hx : Real.cos (la1 * π / 180) * Real.sin (la2 * π / 180) -
        Real.sin (la1 * π / 180) * Real.cos (la2 * π / 180) * Real.cos ((lo - lo) * π / 180) =
        Real.sin ((la2 - la1) * π / 180) := by
      rw [show (lo - lo) * π / 180 = 0 by ring, Real.cos_zero, mul_one,
        show (la2 - la1) * π / 180 = la2 * π / 180 - la1 * π / 180 by ring, Real.sin_sub]
      ring
    have harg : atan2 0 (Real.sin ((la2 - la1) * π / 180)) = 0 := by
      rw [atan2, show ((Real.sin ((la2 - la1) * π / 180) : ℝ) : ℂ) + ((0:ℝ):ℂ) * Complex.I =
        ((Real.sin ((la2 - la1) * π / 180) : ℝ) : ℂ) by push_cast; ring]
      exact Complex.arg_ofReal_of_nonneg hsinpos.le
    simp only [calculateBearing]
    rw [hy, hx, harg, show (0:ℝ) * 180 / π + 360 = 360 by ring]
    rw [jsMod, jsTrunc, if_pos (by norm_num)]
    norm_num
  · have hy : Real.sin ((lo - lo) * π / 180) * Real.cos (la1 * π / 180) = 0 := by
      rw [show (lo - lo) * π / 180 = 0 by ring, Real.sin_zero, zero_mul]
    have hx : Real.cos (la2 * π / 180) * Real.sin (la1 * π / 180) -
        Real.sin (la2 * π / 180) * Real.cos (la1 * π / 180) * Real.cos ((lo - lo) * π / 180) =
        -Real.sin ((la2 - la1) * π / 180) := by
      rw [show (lo - lo) * π / 180 = 0 by ring, Real.cos_zero, mul_one,
        show (la2 - la1) * π / 180 = la2 * π / 180 - la1 * π / 180 by ring, Real.sin_sub]
      ring
    have harg : atan2 0 (-Real.sin ((la2 - la1) * π / 180)) = π := by
      rw [atan2, show ((-Real.sin ((la2 - la1) * π / 180) : ℝ) : ℂ) + ((0:ℝ):ℂ) * Complex.I =
        ((-Real.sin ((la2 - la1) * π / 180) : ℝ) : ℂ) by push_cast; ring]
      exact Complex.arg_ofReal_of_neg (by linarith)
    simp only [calculateBearing]
    rw [hy, hx, harg, show π * 180 / π + 360 = 540 by field_simp; norm_num]
    rw [jsMod, jsTrunc, if_pos (by norm_num)]
    norm_num

/-- Witness for C4 amended: arbitrary pair (1°,2°)→(3°,4°) for the range part,
and the meridian pair latitudes 0° → 45° at longitude 7°. -/
theorem calculateBearing_range_and_meridian_witness :
    (0:ℝ) < 45 ∧ (45:ℝ) - 0 < 180 ∧
    ((0 ≤ calculateBearing 1 2 3 4 ∧ calculateBearing 1 2 3 4 < 360) ∧
     calculateBearing 0 7 45 7 = 0 ∧ calculateBearing 45 7 0 7 = 180) :=
  ⟨by norm_num, by norm_num,
    calculateBearing_range_and_meridian 1 2 3 4 0 45 7 (by norm_num) (by norm_num)⟩

/-! ### The `draw` frame (render command order)

`draw` is embedded as the list of drawing primitives it invokes, in order.
The presence of the marked and current positions is abstracted to two
booleans (the objects are only tested for truthiness in `draw`). -/

/-- One drawing primitive invoked by `draw`. -/
inductive RenderCmd where
  | background
  | grid
  | circles
  | compassRing
  | centerPoint
  | positionDot
  | instructions
deriving DecidableEq, Repr

/-- `draw()` of the heading-rotating `DisplayManager`
(`src/unnamed/part_004`, lines 169–191): grid, circles (whose tail call draws
the compass ring), and center point are drawn unconditionally
(`// Always draw grid and compass for testing`); the position dot needs both
positions; the instruction text is drawn *in addition* when no position is
marked. -/
def drawHeadingRotating (marked current : Bool) : List RenderCmd :=
  [.background, .grid, .circles, .compassRing, .centerPoint] ++
    (if marked && current then [.positionDot] else []) ++
    (if !marked then [.instructions] else [])

/-- `draw()` of the non-rotating `DisplayManager`
(`src/src/core/DisplayManager.js`, lines 169–203): with no marked position
only the instruction text is drawn; otherwise grid, circles, center point,
optionally the dot, then the compass ring. -/
def drawNonRotating (marked current : Bool) : List RenderCmd :=
  if marked then
    [.background, .grid, .circles, .centerPoint] ++
      (if current then [.positionDot] else []) ++ [.compassRing]
  else
    [.background, .instructions]

/-! ### CompassController (`src/src/core/CompassController.js`) -/

/-- The mutable fields of `CompassController` read by the drag logic. -/
structure CompassState where
  isDragging : Bool
  lastMouseX : ℝ
  lastMouseY : ℝ
  centerX : ℝ
  centerY : ℝ
  sensitivity : ℝ

/-- `calculateRotationDelta(canvasX, canvasY, deltaX, deltaY)`
(`src/src/core/CompassController.js`, lines 162–187): the horizontal movement
contributes with a sign depending on the vertical half of the canvas, the
vertical movement with a sign depending on the horizontal half; the two
contributions are summed. -/
noncomputable def calculateRotationDelta (st : CompassState)
    (canvasX canvasY deltaX deltaY : ℝ) : ℝ :=
  let relativeX := canvasX - st.centerX
  let relativeY := canvasY - st.centerY
  let r1 := if relativeY < 0 then -deltaX * st.sensitivity else deltaX * st.sensitivity
  let r2 := if relativeX < 0 then deltaY * st.sensitivity else -deltaY * st.sensitivity
  r1 + r2

/-- `handleMouseMove(event)` (`src/src/core/CompassController.js`,
lines 69–96): returns the updated controller state and the rotation delta
passed to `onHeadingChange`, or `none` when no callback fires (no active drag,
or a zero delta). -/
noncomputable def handleMouseMove (st : CompassState)
    (clientX clientY rectLeft rectTop : ℝ) : CompassState × Option ℝ :=
  if st.isDragging = false then (st, none)
  else
    let deltaX := clientX - st.lastMouseX
    let deltaY := clientY - st.lastMouseY
    let canvasX := clientX - rectLeft
    let canvasY := clientY - rectTop
    let rotationDelta := calculateRotationDelta st canvasX canvasY deltaX deltaY
    let emitted := if rotationDelta ≠ 0 then some rotationDelta else none
    ({ st with lastMouseX := clientX, lastMouseY := clientY }, emitted)

/-! ### GPS accuracy handling (`src/src/core/GPSManager.js` and
`drawPositionDot` lines 302–304 of `src/unnamed/part_004`)

A reported accuracy is a number or absent (`Option ℚ`); JavaScript's truthy
test `if (!accuracy)`/`accuracy ? … : …` treats the number `0` as absent. -/

/-- `getAccuracyDescription(accuracy)` (`src/src/core/GPSManager.js`,
lines 213–221).  `if (!accuracy) return 'Unknown'` fires for a missing value
and for the falsy number `0`. -/
def getAccuracyDescription (accuracy : Option ℚ) : String :=
  match accuracy with
  | none => "Unknown"
  | some q =>
    if q = 0 then "Unknown"
    else if q ≤ 5 then "Excellent"
    else if q ≤ 10 then "Good"
    else if q ≤ 20 then "Fair"
    else if q ≤ 50 then "Poor"
    else "Very Poor"

/-- `getAccuracyColor(accuracy)` (`src/unnamed/part_004`, lines 499–503). -/
def getAccuracyColor (accuracy : ℚ) : String :=
  if accuracy < 5 then "#2196F3"
  else if accuracy < 10 then "#FF9800"
  else "#FF5722"

/-- The dot-color selection of `drawPositionDot` (`src/unnamed/part_004`,
lines 302–304): `this.currentPosition.accuracy ? getAccuracyColor(…) :
this.settings.dotColor`. -/
def positionDotColor (accuracy : Option ℚ) (dotColor : String) : String :=
  match accuracy with
  | none => dotColor
  | some q => if q = 0 then dotColor else getAccuracyColor q

/-- C5: evaluating `draw()` of the heading-rotating `DisplayManager`
(`src/unnamed/part_004`) in a no-reference tick: the grid, the range circles,
the compass ring and the center point ARE drawn, and the instruction text is
drawn on top of them — not *instead of* them as the claim states.  The
non-rotating variant (`src/src/core/DisplayManager.js`) does implement the
claimed behaviour, drawing only the instruction text. -/
theorem draw_noReference_still_draws_grid :
    drawHeadingRotating false false =
      [.background, .grid, .circles, .compassRing, .centerPoint, .instructions] ∧
    RenderCmd.grid ∈ drawHeadingRotating false false ∧
    RenderCmd.instructions ∈ drawHeadingRotating false false ∧
    drawNonRotating false false = [.background, .instructions] := by
  decide

/-- C6: for a nonnegative configured sensitivity, the rotation delta computed
by `calculateRotationDelta` never exceeds, in absolute value, the raw pixel
movement (the summed horizontal and vertical drag contributions
`|deltaX| + |deltaY|`) times the sensitivity; and `handleMouseMove` on a
controller with no active drag leaves the state unchanged and emits no delta. -/
theorem calculateRotationDelta_bounded (st : CompassState)
    (canvasX canvasY deltaX deltaY a b c d : ℝ) (hs : 0 ≤ st.sensitivity) :
    |calculateRotationDelta st canvasX canvasY deltaX deltaY| ≤
      (|deltaX| + |deltaY|) * st.sensitivity ∧
    handleMouseMove { st with isDragging := false } a b c d =
      ({ st with isDragging := false }, none) := by
  constructor
  · simp only [calculateRotationDelta]
    have h1 : |if canvasY - st.centerY < 0 then -deltaX * st.sensitivity
        else deltaX * st.sensitivity| = |deltaX| * st.sensitivity := by
      split
      · rw [abs_mul, abs_neg, abs_of_nonneg hs]
      · rw [abs_mul, abs_of_nonneg hs]
    have h2 : |if canvasX - st.centerX < 0 then deltaY * st.sensitivity
        else -deltaY * st.sensitivity| = |deltaY| * st.sensitivity := by
      split
      · rw [abs_mul, abs_of_nonneg hs]
      · rw [abs_mul, abs_neg, abs_of_nonneg hs]
    calc |(if canvasY - st.centerY < 0 then -deltaX * st.sensitivity
          else deltaX * st.sensitivity) +
          (if canvasX - st.centerX < 0 then deltaY * st.sensitivity
          else -deltaY * st.sensitivity)| ≤
        |if canvasY - st.centerY < 0 then -deltaX * st.sensitivity
          else deltaX * st.sensitivity| +
        |if canvasX - st.centerX < 0 then deltaY * st.sensitivity
          else -deltaY * st.sensitivity| := abs_add _ _
      _ = (|deltaX| + |deltaY|) * st.sensitivity := by rw [h1, h2]; ring
  · simp [handleMouseMove]

/-- Witness for C6: sensitivity 0.67 (the configured default), a drag over the
top-left quadrant moving 3 px right and 4 px down. -/
theorem calculateRotationDelta_bounded_witness :
    (0:ℝ) ≤ 0.67 ∧
    (|calculateRotationDelta ⟨true, 0, 0, 100, 100, 0.67⟩ 10 20 3 4| ≤
        (|(3:ℝ)| + |(4:ℝ)|) * 0.67 ∧
      handleMouseMove ⟨false, 0, 0, 100, 100, 0.67⟩ 1 2 3 4 =
        (⟨false, 0, 0, 100, 100, 0.67⟩, none)) :=
  ⟨by norm_num,
    calculateRotationDelta_bounded ⟨false, 0, 0, 100, 100, 0.67⟩ 10 20 3 4 1 2 3 4
      (by norm_num)⟩

/-- C10: a reported accuracy of exactly 0 is handled as missing:
`getAccuracyDescription` returns `"Unknown"` (not `"Excellent"`), and the dot
color chosen by `drawPositionDot` is the default `dotColor` setting rather
than the accuracy-tier color. -/
theorem zeroAccuracy_treated_as_absent :
    getAccuracyDescription (some 0) = "Unknown" ∧
    getAccuracyDescription (some 0) ≠ "Excellent" ∧
    ∀ dotColor : String, positionDotColor (some 0) dotColor = dotColor := by
  refine ⟨by decide, by decide, fun c => by simp [positionDotColor]⟩

/-! ### Animation loop (`src/unnamed/part_004`, lines 148–164)

`startAnimation` creates a closure `animate` that draws and reschedules
itself through `requestAnimationFrame`, storing the request id in
`this.animationId`; `stopAnimation` cancels only the stored id.  The browser
scheduler is modelled explicitly: `pending` is the list of scheduled
callbacks, each a pair of its request id and the loop instance (closure) it
belongs to; request ids are handed out in increasing order. -/

/-- The animation-relevant state: the `animationId` field together with the
browser's callback queue. -/
structure AnimState where
  nextId : ℕ
  nextLoop : ℕ
  pending : List (ℕ × ℕ)
  animationId : Option ℕ
deriving DecidableEq, Repr

/-- The state before `startAnimation` is ever called. -/
def animInit : AnimState := ⟨0, 0, [], none⟩

/-- One execution of the `animate` closure of loop instance `l`
(`src/unnamed/part_004`, lines 149–152): draw, then
`this.animationId = requestAnimationFrame(animate)` — schedule a new callback
of the same loop and remember its id. -/
def animateTick (s : AnimState) (l : ℕ) : AnimState :=
  { s with pending := s.pending ++ [(s.nextId, l)],
           animationId := some s.nextId,
           nextId := s.nextId + 1 }

/-- `startAnimation()` (lines 148–154): create a fresh `animate` closure and
run it immediately. -/
def startAnimation (s : AnimState) : AnimState :=
  animateTick { s with nextLoop := s.nextLoop + 1 } s.nextLoop

/-- `stopAnimation()` (lines 159–164): `cancelAnimationFrame(this.animationId)`
for the stored id only, then clear the field. -/
def stopAnimation (s : AnimState) : AnimState :=
  match s.animationId with
  | none => s
  | some i => { s with pending := s.pending.filter (fun e => e.1 ≠ i),
                       animationId := none }

/-- The browser fires the scheduled callback with request id `i` (a no-op if
no such callback is pending): the callback is removed from the queue and the
`animate` closure of its loop runs. -/
def fireFrame (s : AnimState) (i : ℕ) : AnimState :=
  match s.pending.find? (fun e => e.1 = i) with
  | none => s
  | some e => animateTick { s with pending := s.pending.filter (fun x => x.1 ≠ i) } e.2

/-- External events driving the animation state. -/
inductive AnimEvent where
  | start
  | stop
  | fire (i : ℕ)
deriving DecidableEq, Repr

/-- Apply one event. -/
def animStep (s : AnimState) : AnimEvent → AnimState
  | .start => startAnimation s
  | .stop => stopAnimation s
  | .fire i => fireFrame s i

/-- Run a sequence of events. -/
def animRun (s : AnimState) : List AnimEvent → AnimState
  | [] => s
  | e :: es => animRun (animStep s e) es

/-- A sequence is guarded when `startAnimation` is only invoked while no
callback of a previous loop is still scheduled. -/
def guardedFrom (s : AnimState) : List AnimEvent → Bool
  | [] => true
  | e :: es =>
    (match e with
     | .start => s.pending.isEmpty
     | _ => true) && guardedFrom (animStep s e) es

/-- The single-loop invariant: at most one callback is pending, and any
pending callback is the one whose id is stored in `animationId`. -/
def AnimInv (s : AnimState) : Prop :=
  s.pending.length ≤ 1 ∧ ∀ e ∈ s.pending, s.animationId = some e.1

theorem animInv_init : AnimInv animInit := by
  constructor <;> simp [animInit]

theorem animRun_append (s : AnimState) (es fs : List AnimEvent) :
    animRun s (es ++ fs) = animRun (animRun s es) fs := by
  induction es generalizing s with
  | nil => rfl
  | cons e es ih => simp [animRun, ih]

theorem animInv_stop {s : AnimState} (h : AnimInv s) :
    (stopAnimation s).pending = [] ∧ AnimInv (stopAnimation s) := by
  obtain ⟨hlen, hid⟩ := h
  have hp : (stopAnimation s).pending = [] := by
    cases hanim : s.animationId with
    | none =>
      have hpend : s.pending = [] := by
        cases hpp : s.pending with
        | nil => rfl
        | cons a t =>
          have := hid a (by rw [hpp]; exact List.mem_cons_self a t)
          rw [hanim] at this
          exact absurd this (by simp)
      simp [stopAnimation, hanim, hpend]
    | some i =>
      have hfil : s.pending.filter (fun e => e.1 ≠ i) = [] := by
        rw [List.filter_eq_nil]
        intro a ha
        have hai := hid a ha
        rw [hanim] at hai
        simp only [Option.some.injEq] at hai
        simp [hai]
      have hst : stopAnimation s =
          { s with pending := s.pending.filter (fun e => e.1 ≠ i),
                   animationId := none } := by
        simp [stopAnimation, hanim]
      rw [hst]
      exact hfil
  refine ⟨hp, ?_, ?_⟩
  · rw [hp]; simp
  · rw [hp]; simp

theorem animInv_start {s : AnimState} (h : s.pending = []) :
    AnimInv (startAnimation s) := by
  constructor <;> simp [startAnimation, animateTick, h]

theorem animInv_fire {s : AnimState} (h : AnimInv s) (i : ℕ) :
    AnimInv (fireFrame s i) := by
  obtain ⟨hlen, hid⟩ := h
  cases hf : s.pending.find? (fun e => e.1 = i) with
  | none =>
    have hst : fireFrame s i = s := by simp [fireFrame, hf]
    rw [hst]
    exact ⟨hlen, hid⟩
  | some e =>
    have hmem : e ∈ s.pending := List.mem_of_find?_eq_some hf
    have hpe : e.1 = i := by have := List.find?_some hf; simpa using this
    have hsingle : s.pending = [e] := by
      cases hp : s.pending with
      | nil =>
        rw [hp] at hmem
        exact absurd hmem (List.not_mem_nil e)
      | cons a t =>
        rw [hp] at hlen hmem
        cases t with
        | nil => simp at hmem; rw [hmem]
        | cons b u => simp at hlen
    have hfil : s.pending.filter (fun x => x.1 ≠ i) = [] := by
      rw [hsingle]
      simp [hpe]
    have hst : fireFrame s i =
        { s with pending := [(s.nextId, e.2)],
                 animationId := some s.nextId,
                 nextId := s.nextId + 1 } := by
      simp only [fireFrame, hf, animateTick]
      simp only [AnimState.mk.injEq]
      refine ⟨trivial, trivial, ?_, trivial⟩
      rw [hsingle]
      simp [hpe]
    rw [hst]
    constructor <;> simp

theorem animInv_run {s : AnimState} (es : List AnimEvent) (h : AnimInv s)
    (hg : guardedFrom s es = true) : AnimInv (animRun s es) := by
  induction es generalizing s with
  | nil => exact h
  | cons e es ih =>
    cases e with
    | start =>
      simp only [guardedFrom, Bool.and_eq_true] at hg
      have hp : s.pending = [] := by
        cases hpp : s.pending with
        | nil => rfl
        | cons a t =>
          rw [hpp] at hg
          exact absurd hg.1 (by simp)
      exact ih (animInv_start hp) hg.2
    | stop =>
      simp only [guardedFrom, Bool.and_eq_true] at hg
      exact ih (animInv_stop h).2 hg.2
    | fire i =>
      simp only [guardedFrom, Bool.and_eq_true] at hg
      exact ih (animInv_fire h i) hg.2

/-- C7 counterexample: calling `startAnimation` twice without an intervening
`stopAnimation` leaves TWO self-rescheduling continuations pending — one per
`animate` closure — and the following `stopAnimation` cancels only the id
stored by the second loop, so the continuation `(0, 0)` of the first loop
remains scheduled. -/
theorem startAnimation_twice_leaks :
    (animRun animInit [.start, .start]).pending.length = 2 ∧
    (animRun animInit [.start, .start, .stop]).pending = [(0, 0)] := by
  decide

/-- C7 amended: in every state reachable by a *guarded* sequence of events —
one in which `startAnimation` is only invoked while no callback is pending
(in particular, always after a `stopAnimation`) — at most one continuation is
pending, and a final `stopAnimation` leaves none scheduled.  The restriction
is necessary: an unguarded double `startAnimation` leaks the first loop. -/
theorem animation_single_loop_when_guarded (es : List AnimEvent)
    (hg : guardedFrom animInit es = true) :
    (animRun animInit es).pending.length ≤ 1 ∧
    (animRun animInit (es ++ [.stop])).pending = [] := by
  have h1 := animInv_run es animInv_init hg
  refine ⟨h1.1, ?_⟩
  rw [animRun_append]
  exact (animInv_stop h1).1

/-- Witness for C7 amended: start, one frame, stop, restart, stop. -/
theorem animation_single_loop_when_guarded_witness :
    guardedFrom animInit [.start, .fire 0, .stop, .start, .stop] = true ∧
    ((animRun animInit [.start, .fire 0, .stop, .start, .stop]).pending.length ≤ 1 ∧
     (animRun animInit ([.start, .fire 0, .stop, .start, .stop] ++ [.stop])).pending = []) :=
  ⟨by decide, animation_single_loop_when_guarded [.start, .fire 0, .stop, .start, .stop] (by decide)⟩

/-! ### SettingsManager (`src/unnamed/part_002`)

JavaScript objects holding settings are modelled as association lists from
string keys to primitive values; `{ ...a, ...b }` is a right-biased merge and
`obj[k] = v` replaces in place or appends. -/

/-- A primitive JavaScript value stored in the settings objects. -/
inductive JSVal where
  | num (q : ℚ)
  | bool (b : Bool)
  | str (s : String)
deriving DecidableEq, Repr

/-- A settings object: ordered key/value pairs. -/
abbrev Obj := List (String × JSVal)

/-- Property read `o[k]` (generic over the value type). -/
def objGet {α : Type} (o : List (String × α)) (k : String) : Option α :=
  o.lookup k

/-- Property write `o[k] = v`: replace in place when the key exists,
append otherwise. -/
def objSet {α : Type} (o : List (String × α)) (k : String) (v : α) :
    List (String × α) :=
  if (o.lookup k).isSome then
    o.map (fun e => if e.1 = k then (e.1, v) else e)
  else o ++ [(k, v)]

/-- The object spread `{ ...a, ...b }`: entries of `b` override or extend `a`. -/
def objMerge (a b : Obj) : Obj :=
  b.foldl (fun acc e => objSet acc e.1 e.2) a

/-- `typeof v === 'boolean'` on a property read. -/
def isBoolVal : Option JSVal → Bool
  | some (.bool _) => true
  | _ => false

/-- `typeof v === 'number' && v > c`. -/
def numGT (v : Option JSVal) (c : ℚ) : Bool :=
  match v with
  | some (.num q) => decide (c < q)
  | _ => false

/-- `typeof v === 'number' && v >= c`. -/
def numGE (v : Option JSVal) (c : ℚ) : Bool :=
  match v with
  | some (.num q) => decide (c ≤ q)
  | _ => false

/-- `list.includes(v)` for a string-valued property read. -/
def strIn (v : Option JSVal) (l : List String) : Bool :=
  match v with
  | some (.str t) => l.contains t
  | _ => false

/-- `validateGPSSettings` (`src/unnamed/part_002`, lines 214–221). -/
def validateGPSSettings (s : Obj) : Bool :=
  isBoolVal (objGet s "enableHighAccuracy") &&
  numGT (objGet s "timeout") 0 &&
  numGE (objGet s "maximumAge") 0 &&
  numGE (objGet s "updateInterval") 100

/-- `validateDisplaySettings` (lines 226–235). -/
def validateDisplaySettings (s : Obj) : Bool :=
  numGT (objGet s "gridSize") 0 &&
  numGT (objGet s "gridScale") 0 &&
  numGT (objGet s "circleCount") 0 &&
  numGT (objGet s "circleScale") 0 &&
  numGT (objGet s "dotSize") 0 &&
  numGT (objGet s "animationSpeed") 0

/-- `validateUISettings` (lines 240–251). -/
def validateUISettings (s : Obj) : Bool :=
  strIn (objGet s "theme") ["dark", "light"] &&
  strIn (objGet s "language") ["en", "es", "fr", "de"] &&
  isBoolVal (objGet s "vibrationEnabled") &&
  isBoolVal (objGet s "soundEnabled") &&
  isBoolVal (objGet s "keepScreenOn")

/-- `validateAdvancedSettings` (lines 256–270). -/
def validateAdvancedSettings (s : Obj) : Bool :=
  isBoolVal (objGet s "debugMode") &&
  strIn (objGet s "logLevel") ["debug", "info", "warn", "error"] &&
  strIn (objGet s "coordinateSystem") ["metric", "imperial"] &&
  strIn (objGet s "bearingFormat") ["degrees", "radians"] &&
  isBoolVal (objGet s "positionSmoothing") &&
  (match objGet s "smoothingFactor" with
   | some (.num q) => decide (0 ≤ q) && decide (q ≤ 1)
   | _ => false)

/-- `validateSettings(category, settings)` (lines 196–209): unknown categories
validate trivially. -/
def validateSettings (category : String) (s : Obj) : Bool :=
  if category = "gps" then validateGPSSettings s
  else if category = "display" then validateDisplaySettings s
  else if category = "ui" then validateUISettings s
  else if category = "advanced" then validateAdvancedSettings s
  else true

/-- `SettingsManager.updateSettings(category, newSettings)` (lines 144–167):
create the category if absent, take a shallow copy of the old category
object, merge the new settings in place, validate; on success persist and
emit `settings:changed`, on failure write the old copy back and throw.
The result is the final stored settings, the list of emitted events, and
whether an error was thrown. -/
def updateSettings (settings : List (String × Obj)) (category : String)
    (newSettings : Obj) : List (String × Obj) × List String × Bool :=
  let s1 := if (settings.lookup category).isNone then settings ++ [(category, [])]
    else settings
  let oldSettings := (s1.lookup category).getD []
  let merged := objMerge oldSettings newSettings
  let s2 := objSet s1 category merged
  if validateSettings category merged then (s2, ["settings:changed"], false)
  else (objSet s2 category oldSettings, [], true)

/-- `getDefaultSettings` (`src/unnamed/part_002`, lines 16–51). -/
def defaultSettings : List (String × Obj) :=
  [("gps", [("enableHighAccuracy", .bool true), ("timeout", .num 10000),
            ("maximumAge", .num 0), ("updateInterval", .num 1000)]),
   ("display", [("gridSize", .num 5), ("gridScale", .num 1), ("circleCount", .num 5),
                ("circleScale", .num 1), ("dotSize", .num 8), ("animationSpeed", .num 1),
                ("showGrid", .bool true), ("showCircles", .bool true),
                ("showCoordinates", .bool true)]),
   ("ui", [("theme", .str "dark"), ("language", .str "en"),
           ("vibrationEnabled", .bool true), ("soundEnabled", .bool false),
           ("keepScreenOn", .bool true)]),
   ("advanced", [("debugMode", .bool false), ("logLevel", .str "info"),
                 ("coordinateSystem", .str "metric"), ("bearingFormat", .str "degrees"),
                 ("positionSmoothing", .bool true), ("smoothingFactor", .num (1/10))])]

theorem lookup_cons_eq_key {κ α : Type} [BEq κ] [LawfulBEq κ] {a : κ × α}
    {t : List (κ × α)} {k : κ} (h : a.1 = k) : (a :: t).lookup k = some a.2 := by
  rw [List.lookup_cons, show (k == a.1) = true by subst h; simp]

theorem lookup_cons_ne_key {κ α : Type} [BEq κ] [LawfulBEq κ] {a : κ × α}
    {t : List (κ × α)} {k : κ} (h : ¬ a.1 = k) : (a :: t).lookup k = t.lookup k := by
  rw [List.lookup_cons,
    show (k == a.1) = false by rw [beq_eq_false_iff_ne]; exact fun hh => h hh.symm]

theorem lookup_isSome_of_mem {κ α : Type} [BEq κ] [LawfulBEq κ] {o : List (κ × α)}
    {e : κ × α} (he : e ∈ o) : (o.lookup e.1).isSome := by
  induction o with
  | nil => exact absurd he (List.not_mem_nil e)
  | cons a t ih =>
    rcases List.mem_cons.mp he with rfl | ht
    · rw [lookup_cons_eq_key rfl]; rfl
    · by_cases hak : a.1 = e.1
      · rw [lookup_cons_eq_key hak]; rfl
      · rw [lookup_cons_ne_key hak]; exact ih ht

theorem lookup_append_single {κ α : Type} [BEq κ] [LawfulBEq κ] (o : List (κ × α)) (k : κ) (v : α)
    (hall : ∀ e ∈ o, e.1 ≠ k) : (o ++ [(k, v)]).lookup k = some v := by
  induction o with
  | nil => rw [List.nil_append]; exact lookup_cons_eq_key rfl
  | cons a t ih =>
    rw [List.cons_append, lookup_cons_ne_key (hall a (List.mem_cons_self a t))]
    exact ih (fun e he => hall e (List.mem_cons_of_mem a he))

theorem mem_of_lookup_eq_some {κ α : Type} [BEq κ] [LawfulBEq κ]
    {o : List (κ × α)} {k : κ} {v : α} (h : o.lookup k = some v) : (k, v) ∈ o := by
  induction o with
  | nil => exact Option.noConfusion h
  | cons a t ih =>
    by_cases hak : a.1 = k
    · rw [lookup_cons_eq_key hak] at h
      have hv := Option.some.inj h
      exact List.mem_cons.mpr (Or.inl (by rw [← hak, ← hv]))
    · rw [lookup_cons_ne_key hak] at h
      exact List.mem_cons_of_mem a (ih h)

theorem map_if_key_eq_of_not_mem {α : Type} (k : String) (v : α) :
    ∀ (o : List (String × α)), (∀ e ∈ o, e.1 ≠ k) →
      o.map (fun e => if e.1 = k then (e.1, v) else e) = o := by
  intro o
  induction o with
  | nil => intro _; rfl
  | cons a t ih =>
    intro h
    have ha : a.1 ≠ k := h a (List.mem_cons_self a t)
    simp only [List.map_cons, if_neg ha]
    rw [ih (fun e he => h e (List.mem_cons_of_mem a he))]

theorem map_if_key_eq_self {α : Type} (k : String) (v : α) :
    ∀ (o : List (String × α)), o.lookup k = some v →
      (o.map Prod.fst).Nodup →
      o.map (fun e => if e.1 = k then (e.1, v) else e) = o := by
  intro o
  induction o with
  | nil => intro hl _; exact Option.noConfusion hl
  | cons a t ih =>
    intro hl hn
    rw [List.map_cons, List.nodup_cons] at hn
    by_cases hak : a.1 = k
    · have hv : a.2 = v := by
        rw [lookup_cons_eq_key hak] at hl
        exact Option.some.inj hl
      have htail : ∀ e ∈ t, e.1 ≠ k := by
        intro e he hek
        rw [← hak] at hek
        exact hn.1 (hek ▸ List.mem_map_of_mem Prod.fst he)
      simp only [List.map_cons, if_pos hak]
      rw [map_if_key_eq_of_not_mem k v t htail, ← hv]
    · have hl' : t.lookup k = some v := by
        rw [lookup_cons_ne_key hak] at hl
        exact hl
      simp only [List.map_cons, if_neg hak]
      rw [ih hl' hn.2]

theorem objSet_objSet {α : Type} (o : List (String × α)) (k : String) (v w : α) :
    objSet (objSet o k v) k w = objSet o k w := by
  by_cases h : (o.lookup k).isSome
  · have hkeys : (o.map (fun e => if e.1 = k then (e.1, v) else e)).lookup k =
        some v := by
      induction o with
      | nil => exact absurd h (by simp [List.lookup])
      | cons a t ih =>
        by_cases hak : a.1 = k
        · simp only [List.map_cons, if_pos hak]
          exact lookup_cons_eq_key (a := (a.1, v)) hak
        · rw [lookup_cons_ne_key hak] at h
          simp only [List.map_cons, if_neg hak]
          rw [lookup_cons_ne_key hak]
          exact ih h
    have h1 : objSet o k v = o.map (fun e => if e.1 = k then (e.1, v) else e) := by
      rw [objSet, if_pos h]
    have h2 : objSet o k w = o.map (fun e => if e.1 = k then (e.1, w) else e) := by
      rw [objSet, if_pos h]
    have h3 : ((o.map (fun e => if e.1 = k then (e.1, v) else e)).lookup k).isSome := by
      rw [hkeys]; rfl
    calc objSet (objSet o k v) k w
        = (o.map (fun e => if e.1 = k then (e.1, v) else e)).map
            (fun e => if e.1 = k then (e.1, w) else e) := by
          rw [h1, objSet, if_pos h3]
      _ = o.map (fun e => if e.1 = k then (e.1, w) else e) := by
          rw [List.map_map]
          congr 1
          funext e
          by_cases hek : e.1 = k <;> simp [hek]
      _ = objSet o k w := h2.symm
  · have hall : ∀ e ∈ o, e.1 ≠ k := fun e he hek =>
      h (hek ▸ lookup_isSome_of_mem he)
    have happ : ((o ++ [(k, v)]).lookup k).isSome := by
      rw [lookup_append_single o k v hall]; rfl
    have hinner : objSet o k v = o ++ [(k, v)] := by
      rw [objSet, if_neg h]
    rw [hinner]
    rw [objSet, if_pos happ]
    rw [objSet, if_neg h]
    rw [List.map_append, map_if_key_eq_of_not_mem k w o hall]
    simp

theorem objSet_lookup_self {α : Type} (o : List (String × α)) (k : String) (v : α)
    (hl : o.lookup k = some v) (hn : (o.map Prod.fst).Nodup) :
    objSet o k v = o := by
  rw [objSet, if_pos (by rw [hl]; rfl)]
  exact map_if_key_eq_self k v o hl hn

/-- C8: `updateSettings` is atomic.  For any stored settings whose category
keys are distinct and any existing category: when validation of the merged
category object fails, the stored settings after the call are exactly the
settings before it (the category is written back to its prior value), no
event is emitted, and the call throws; when validation succeeds, the merged
object is stored and a single `settings:changed` event is emitted. -/
theorem updateSettings_atomic (settings : List (String × Obj)) (category : String)
    (newSettings : Obj) (hmem : (settings.lookup category).isSome)
    (hnodup : (settings.map Prod.fst).Nodup) :
    updateSettings settings category newSettings =
      if validateSettings category
          (objMerge ((settings.lookup category).getD []) newSettings) then
        (objSet settings category
          (objMerge ((settings.lookup category).getD []) newSettings),
         ["settings:changed"], false)
      else (settings, [], true) := by
  obtain ⟨old, hold⟩ := Option.isSome_iff_exists.mp hmem
  have hs1 : (if (settings.lookup category).isNone then settings ++ [(category, [])]
      else settings) = settings := by
    rw [hold]
    rfl
  simp only [updateSettings]
  rw [hs1, hold, Option.getD_some]
  split
  · rfl
  · rw [objSet_objSet, objSet_lookup_self settings category old hold hnodup]

/-- Witness for C8: updating the `gps` category of the default settings with
the invalid `timeout = -1` throws and leaves the stored settings unchanged. -/
theorem updateSettings_atomic_witness :
    (defaultSettings.lookup "gps").isSome ∧
    (defaultSettings.map Prod.fst).Nodup ∧
    updateSettings defaultSettings "gps" [("timeout", JSVal.num (-1))] =
      (defaultSettings, [], true) := by
  refine ⟨by decide, by decide, ?_⟩
  have h := updateSettings_atomic defaultSettings "gps" [("timeout", JSVal.num (-1))]
    (by decide) (by decide)
  have hv : validateSettings "gps"
      (objMerge ((defaultSettings.lookup "gps").getD []) [("timeout", JSVal.num (-1))]) =
      false := by decide
  rw [h, hv]
  rfl

/-! ### HoverAssistant.onMarkPosition (`src/src/core/HoverAssistant.js`,
lines 202–208)

JavaScript objects live on a heap and fields hold references; the spread
`{ ...this.currentPosition }` allocates a fresh object with copied fields.
The heap is modelled as an association list from reference ids to position
records, and `currentPosition` / `markedPosition` hold reference ids. -/

/-- The fields of a position sample that `onMarkPosition` copies. -/
structure Pos where
  latitude : ℚ
  longitude : ℚ
  accuracy : ℚ
deriving DecidableEq, Repr

/-- Orchestrator state: the object heap, the reference held in
`currentPosition`, the reference held in `markedPosition`, and the marked
position last handed to `displayManager.setMarkedPosition`. -/
structure AppState where
  nextRef : ℕ
  heap : List (ℕ × Pos)
  currentPosition : Option ℕ
  markedPosition : Option ℕ
  displayMarked : Option ℕ
deriving DecidableEq, Repr

/-- `onMarkPosition()`: if `this.currentPosition` is truthy, allocate a
shallow copy, store its reference in `markedPosition`, and pass the same
reference to the display; otherwise do nothing. -/
def onMarkPosition (s : AppState) : AppState :=
  match s.currentPosition with
  | none => s
  | some r =>
    match s.heap.lookup r with
    | none => s
    | some p =>
      { s with nextRef := s.nextRef + 1,
               heap := (s.nextRef, p) :: s.heap,
               markedPosition := some s.nextRef,
               displayMarked := some s.nextRef }

/-- A later in-place mutation of the current sample object (e.g. a field
write on the object `currentPosition` points to). -/
def mutateCurrent (s : AppState) (f : Pos → Pos) : AppState :=
  match s.currentPosition with
  | none => s
  | some r =>
    { s with heap := s.heap.map (fun e => if e.1 = r then (r, f e.2) else e) }

/-- C9: `onMarkPosition` is a guarded no-op and marks by shallow copy.
When `currentPosition` is null the whole state — in particular
`markedPosition` and the display's marked position — is unchanged.
Otherwise `markedPosition` becomes a freshly allocated copy of the current
sample: the new reference differs from the current sample's reference, it
holds the same field values, and a later in-place mutation of the current
sample object leaves the marked copy untouched. -/
theorem onMarkPosition_spec (s : AppState) (r : ℕ) (p : Pos) (f : Pos → Pos)
    (hcur : s.currentPosition = some r)
    (hlook : s.heap.lookup r = some p)
    (hfresh : ∀ e ∈ s.heap, e.1 < s.nextRef) :
    (onMarkPosition { s with currentPosition := none } =
      { s with currentPosition := none }) ∧
    (onMarkPosition s).markedPosition = some s.nextRef ∧
    (onMarkPosition s).displayMarked = some s.nextRef ∧
    (onMarkPosition s).currentPosition = some r ∧
    s.nextRef ≠ r ∧
    (onMarkPosition s).heap.lookup s.nextRef = some p ∧
    (mutateCurrent (onMarkPosition s) f).heap.lookup s.nextRef = some p := by
  have hne : s.nextRef ≠ r := by
    have hmem := mem_of_lookup_eq_some hlook
    have := hfresh (r, p) hmem
    omega
  have hstate : onMarkPosition s =
      { s with nextRef := s.nextRef + 1,
               heap := (s.nextRef, p) :: s.heap,
               markedPosition := some s.nextRef,
               displayMarked := some s.nextRef } := by
    simp only [onMarkPosition, hcur, hlook]
  refine ⟨rfl, ?_, ?_, ?_, hne, ?_, ?_⟩
  · rw [hstate]
  · rw [hstate]
  · rw [hstate]
    exact hcur
  · rw [hstate]
    exact lookup_cons_eq_key rfl
  · rw [hstate]
    simp only [mutateCurrent, hcur, List.map_cons, if_neg hne]
    exact lookup_cons_eq_key rfl

/-- A concrete one-sample state for exercising `onMarkPosition`. -/
def markDemoState : AppState :=
  ⟨1, [(0, ⟨47, 8, 5⟩)], some 0, none, none⟩

/-- Witness for C9 at the concrete state `markDemoState`, mutating the
current sample's latitude after marking. -/
theorem onMarkPosition_spec_witness :
    markDemoState.currentPosition = some 0 ∧
    markDemoState.heap.lookup 0 = some ⟨47, 8, 5⟩ ∧
    (∀ e ∈ markDemoState.heap, e.1 < markDemoState.nextRef) ∧
    ((onMarkPosition { markDemoState with currentPosition := none } =
        { markDemoState with currentPosition := none }) ∧
      (onMarkPosition markDemoState).markedPosition = some markDemoState.nextRef ∧
      (onMarkPosition markDemoState).displayMarked = some markDemoState.nextRef ∧
      (onMarkPosition markDemoState).currentPosition = some 0 ∧
      markDemoState.nextRef ≠ 0 ∧
      (onMarkPosition markDemoState).heap.lookup markDemoState.nextRef =
        some ⟨47, 8, 5⟩ ∧
      (mutateCurrent (onMarkPosition markDemoState)
          (fun q => ⟨q.latitude + 1, q.longitude, q.accuracy⟩)).heap.lookup
        markDemoState.nextRef = some ⟨47, 8, 5⟩) :=
  ⟨rfl, rfl, by decide,
    onMarkPosition_spec markDemoState 0 ⟨47, 8, 5⟩
      (fun q => ⟨q.latitude + 1, q.longitude, q.accuracy⟩) rfl rfl (by decide)⟩

end HoverAssistant
